import Mathlib

/-!
# Verification of the stereopy core dataset (`stereo/core`)

Shallow embedding of `stereo/core/stereo_exp_data.py` and `stereo/core/cell.py`:
the `StereoExpData` aggregate (expression matrix, cell/gene metadata, spatial
positions, bin configuration), its subsetting operations, grid-bin coordinate
quantization, cell-boundary convex-hull aggregation, the text-ingestion matrix
construction, and the h5ad-style hierarchical persistence codec.

Conventions of the embedding:
* numpy integer arrays are `List Int`; float arrays carrying coordinates are
  `List Rat` (exact rationals stand in for IEEE doubles: every finite double is
  a rational, and the operations used here are exact on them);
* a sparse or dense expression matrix is its value grid `List (List Int)` plus
  a sparsity flag (`scipy` fancy indexing and the dense array agree on values);
* fallible Python code returns `Except PyExc _`; a method that mutates its
  receiver in place and returns `self` is a function `State → State` (the
  returned value *is* the receiver's new state), while a method returning a
  fresh object is `State → State × Result` (receiver state after, result);
* messages passed to `logger.error` are recorded alongside results where a
  claim depends on them.
-/

namespace Stereopy

/-- A Python exception: its class name and its message (`none` for a bare
`raise Exception`). -/
structure PyExc where
  excName : String
  msg : Option String
  deriving Repr, DecidableEq

/-- A Python value offered to `Cell.cell_name`'s setter: either a numpy
`ndarray` of names, or any non-ndarray value (carried as a description). -/
inductive PyVal where
  | ndarray (arr : List String)
  | nonArray (descr : String)
  deriving Repr, DecidableEq

/-! ## `stereo/core/cell.py` — the `Cell` metadata table -/

/-- The `Cell` from `cell.py`: the name array and the three per-cell scalar
attribute arrays (`total_counts`, `pct_counts_mt`, `n_genes_by_counts`),
each `None` until populated. -/
structure Cell where
  cell_name : Option (List String) := none
  total_counts : Option (List Rat) := none
  pct_counts_mt : Option (List Rat) := none
  n_genes_by_counts : Option (List Rat) := none
  deriving Repr, DecidableEq

/-- The `cell_name` property setter of `Cell`: rejects any value that is not
an `np.ndarray` with a `TypeError` (leaving the stored name unchanged, since
the exception fires before the assignment), and stores an `ndarray` value.
Returns the receiver's state after the call together with the exception, if
any. -/
def Cell.set_cell_name (c : Cell) (v : PyVal) : Cell × Option PyExc :=
  match v with
  | .nonArray _ => (c, some ⟨"TypeError", some "cell name must be a np.ndarray object."⟩)
  | .ndarray a => ({ c with cell_name := some a }, none)

/-- numpy fancy indexing `arr[index]` on a name array: one output entry per
index, in index order (duplicate indices allowed). Out-of-range indices do not
occur in the verified paths; `getD` supplies a default there. -/
def fancy (arr : List String) (index : List Nat) : List String :=
  index.map (fun i => arr.getD i "")

/-- numpy fancy indexing on a rational attribute array. -/
def fancyQ (arr : List Rat) (index : List Nat) : List Rat :=
  index.map (fun i => arr.getD i 0)

/-- The `Cell.sub_set(index)` from `cell.py`: slices the name array and every
populated attribute array by `index`, in place, returning the receiver. -/
def Cell.sub_set (c : Cell) (index : List Nat) : Cell :=
  { cell_name := c.cell_name.map (fancy · index)
    total_counts := c.total_counts.map (fancyQ · index)
    pct_counts_mt := c.pct_counts_mt.map (fancyQ · index)
    n_genes_by_counts := c.n_genes_by_counts.map (fancyQ · index) }

/-- Modelled from the spec: the `Gene` metadata table (`stereo/core/gene.py`
is not part of the sources at hand; the spec's MetadataTable describes it as
an ordered name sequence with parallel attribute arrays, mirroring `Cell`,
and `sub_set` applies the same index selection to every populated array). -/
structure Gene where
  gene_name : Option (List String) := none
  n_cells : Option (List Rat) := none
  deriving Repr, DecidableEq

/-- Modelled from the spec: `Gene.sub_set(index)`, the same simultaneous
slicing contract as `Cell.sub_set`. -/
def Gene.sub_set (g : Gene) (index : List Nat) : Gene :=
  { gene_name := g.gene_name.map (fancy · index)
    n_cells := g.n_cells.map (fancyQ · index) }

/-! ## The expression matrix

`StereoExpData` holds either a `scipy` CSR matrix or a dense `np.ndarray`.
Both are modelled by their value grid (row-major `List (List Int)`) plus the
intended column count and a sparsity flag; the persistence codec below
serializes the sparse case through an explicit compressed encoding. -/

structure ExpMat where
  sparse : Bool
  ncols : Nat
  rows : List (List Int)
  deriving Repr, DecidableEq

/-- A well-formed matrix: rectangular, and the column count is the row width
(`0` when there are no rows, as a shapeless empty array). -/
def ExpMat.WF (m : ExpMat) : Prop :=
  (∀ r ∈ m.rows, r.length = m.ncols) ∧ (m.rows = [] → m.ncols = 0)

/-- Row fancy indexing `m[cell_index, :]`. -/
def ExpMat.rowSelect (m : ExpMat) (index : List Nat) : ExpMat :=
  { m with rows := index.map (fun i => m.rows.getD i []) }

/-- Column fancy indexing `m[:, gene_index]`. -/
def ExpMat.colSelect (m : ExpMat) (index : List Nat) : ExpMat :=
  { m with ncols := index.length
           rows := m.rows.map (fun r => index.map (fun j => r.getD j 0)) }

/-! ## `StereoExpData` itself -/

/-- The `StereoExpData` aggregate, with the fields the verified operations
touch (`file_path`/`file_format`/`partitions` from the `Data` base class play
no role in these claims; `output` does). -/
structure StereoExpData where
  exp_matrix : ExpMat
  cells : Cell
  genes : Gene
  position : List (Rat × Rat)
  bin_type : Option String
  bin_size : Int := 100
  output : Option String := none
  deriving Repr, DecidableEq

/-- The `StereoExpData.bin_type_check`: accepts `None`, `'bins'` and
`'cell_bins'`; for anything else it logs a message citing the offending value
and raises. The error value carries the logged message (the raised exception
itself is a bare `Exception`); the boolean records nothing else. -/
def bin_type_check (bin_type : Option String) : Except (String × PyExc) Unit :=
  match bin_type with
  | none => .ok ()
  | some b =>
    if b = "bins" ∨ b = "cell_bins" then .ok ()
    else .error ("the bin type `" ++ b ++ "` is not in the range, please check!",
                 ⟨"Exception", none⟩)

/-- The `StereoExpData.check()`: the base-class check concerns only file-path and
format bookkeeping (modelled from the spec, which assigns `check()` exactly
the `bin_type` validation), then `bin_type_check` runs on the stored value. -/
def StereoExpData.check (d : StereoExpData) : Except (String × PyExc) Unit :=
  bin_type_check d.bin_type

/-- The `bin_type` property setter: validates via `bin_type_check` before
assigning, so an invalid value raises and leaves the stored value unchanged. -/
def StereoExpData.set_bin_type (d : StereoExpData) (b : Option String) :
    Except (String × PyExc) StereoExpData :=
  match bin_type_check b with
  | .ok () => .ok { d with bin_type := b }
  | .error e => .error e

/-- The `StereoExpData.sub_by_index(cell_index, gene_index)`: slices the matrix
rows, the position rows and the cell table by `cell_index` when given, then
the matrix columns and the gene table by `gene_index` when given. The Python
method mutates the receiver's fields in place and returns `self`; its
embedding returns the receiver's new state, which is also the returned
object. -/
def StereoExpData.sub_by_index (d : StereoExpData)
    (cell_index gene_index : Option (List Nat)) : StereoExpData :=
  let d1 :=
    match cell_index with
    | none => d
    | some ci =>
      { d with exp_matrix := d.exp_matrix.rowSelect ci
               position := ci.map (fun i => d.position.getD i (0, 0))
               cells := d.cells.sub_set ci }
  match gene_index with
  | none => d1
  | some gi =>
    { d1 with exp_matrix := d1.exp_matrix.colSelect gi
              genes := d1.genes.sub_set gi }

/-- The `np.argwhere(names == i)[0][0]`: the first position of `i` in `names`.
When `i` is absent, `argwhere` returns an empty array and the `[0]` indexing
raises numpy's generic `IndexError` — a message that does not mention `i`. -/
def argwhere_first (names : List String) (i : String) : Except PyExc Nat :=
  match names.findIdx? (· = i) with
  | some k => .ok k
  | none => .error ⟨"IndexError", some "index 0 is out of bounds for axis 0 with size 0"⟩

/-- The `StereoExpData.sub_by_name(cell_name, gene_name)`: deep-copies the
receiver, resolves every requested cell name (then every gene name) to its
first index in the copy's name arrays, and delegates to `sub_by_index` on the
copy. On success the pair is (receiver's state after the call, returned
object): the receiver is untouched because every mutation targets the deep
copy. Name resolution is the list comprehension
`[np.argwhere(names == i)[0][0] for i in requested]`. -/
def resolveNames (names : List String) :
    Option (List String) → Except PyExc (Option (List Nat))
  | none => .ok none
  | some l =>
    match l.mapM (argwhere_first names) with
    | .ok ks => .ok (some ks)
    | .error e => .error e

/-- The `StereoExpData.sub_by_name(cell_name, gene_name)` itself: resolve the
cell names on the deep copy, then the gene names, then delegate to
`sub_by_index` on the copy. -/
def StereoExpData.sub_by_name (d : StereoExpData)
    (cell_name gene_name : Option (List String)) :
    Except PyExc (StereoExpData × StereoExpData) :=
  match resolveNames (d.cells.cell_name.getD []) cell_name with
  | .error e => .error e
  | .ok cell_index =>
    match resolveNames (d.genes.gene_name.getD []) gene_name with
    | .error e => .error e
    | .ok gene_index => .ok (d, d.sub_by_index cell_index gene_index)

/-! ## Grid-bin quantization (`parse_bin_coor` and its helpers)

Raw coordinates are integers (columns `x`, `y` of the ingestion format).
`np.floor((coor - coor_min)/bin_size)` is exact floor division on these
integer inputs, embedded as `Int.fdiv`; `int(bin_size/2)` truncates the
positive float `bin_size/2` toward zero, which is `bin_size.fdiv 2` for the
positive bin sizes in use. -/

/-- The `StereoExpData.merge_bin_coor`: `np.floor((coor - coor_min)/bin_size)`. -/
def merge_bin_coor (coor coor_min bin_size : Int) : Int :=
  (coor - coor_min).fdiv bin_size

/-- The `StereoExpData.get_bin_center`:
`bin_coor*bin_size + coor_min + int(bin_size/2)`. -/
def get_bin_center (bin_coor coor_min bin_size : Int) : Int :=
  bin_coor * bin_size + coor_min + bin_size.fdiv 2

/-- One row of the dataframe after `parse_bin_coor`: the raw point together
with its bin coordinates, synthetic cell id and bin-center coordinates. -/
structure BinRow where
  x : Int
  y : Int
  bin_x : Int
  bin_y : Int
  cell_id : String
  x_center : Int
  y_center : Int
  deriving Repr, DecidableEq, Inhabited

/-- The `df['x'].min()` over a point list (0 on an empty frame, unused there). -/
def colMin (l : List Int) : Int :=
  match l with
  | [] => 0
  | a :: t => t.foldl min a

/-- The `StereoExpData.parse_bin_coor(df, bin_size)`: computes the per-axis
minima, the per-point bin coordinates, the synthetic
`cell_id = str(bin_x) + '_' + str(bin_y)`, and the per-point bin centers. -/
def parse_bin_coor (pts : List (Int × Int)) (bin_size : Int) : List BinRow :=
  let x_min := colMin (pts.map Prod.fst)
  let y_min := colMin (pts.map Prod.snd)
  pts.map (fun p =>
    let bx := merge_bin_coor p.1 x_min bin_size
    let by_ := merge_bin_coor p.2 y_min bin_size
    { x := p.1, y := p.2, bin_x := bx, bin_y := by_
      cell_id := toString bx ++ "_" ++ toString by_
      x_center := get_bin_center bx x_min bin_size
      y_center := get_bin_center by_ y_min bin_size })

/-! ## Ingestion: building the expression matrix (`read_txt`)

After binning, each surviving record carries a cell id, a gene id and a UMI
count. `read_txt` takes the first-occurrence-ordered unique cell and gene
ids (`pandas.unique`), maps each record to a (row, column, count) triple,
and builds `csr_matrix((counts, (rows, cols)), shape)` — scipy's COO-style
constructor, which sums duplicate coordinates. -/

/-- A surviving ingestion record after binning/cleaning. -/
structure RawRec where
  cell_id : String
  geneID : String
  umiCount : Int
  deriving Repr, DecidableEq

/-- The `pandas.Series.unique`: distinct values in order of first occurrence. -/
def uniqueFirst : List String → List String
  | [] => []
  | x :: t => x :: (uniqueFirst t).filter (· ≠ x)

/-- The zero `nrows × ncols` dense value grid. -/
def zeroGrid (nrows ncols : Nat) : List (List Int) :=
  List.replicate nrows (List.replicate ncols 0)

/-- Entry `(i, j)` of a value grid (0 outside the grid). -/
def gridEntry (m : List (List Int)) (i j : Nat) : Int :=
  (m.getD i []).getD j 0

/-- Add `v` into entry `(i, j)` of the grid. -/
def gridAdd (m : List (List Int)) (i j : Nat) (v : Int) : List (List Int) :=
  m.set i ((m.getD i []).set j ((m.getD i []).getD j 0 + v))

/-- The `csr_matrix((data, (rows, cols)), shape)`: scipy's duplicate-summing
COO-style construction, embedded as accumulation of the triples into a zero
grid. -/
def csr_from_triples (nrows ncols : Nat) (triples : List (Nat × Nat × Int)) :
    List (List Int) :=
  triples.foldl (fun m t => gridAdd m t.1 t.2.1 t.2.2) (zeroGrid nrows ncols)

/-- The row/column index of a record under the first-occurrence dictionaries
(`cells_dict` / `genes_dict` of `read_txt`); total on surviving records since
every record's ids occur in the unique lists. -/
def dictIdx (uniq : List String) (v : String) : Nat :=
  (uniq.findIdx? (· = v)).getD 0

/-- The matrix-construction core of `StereoExpData.read_txt`: unique cells
and genes in first-occurrence order, index dictionaries, and the
duplicate-summing sparse construction from the (row, col, count) triples. -/
def read_txt_matrix (recs : List RawRec) : List String × List String × List (List Int) :=
  let cells := uniqueFirst (recs.map RawRec.cell_id)
  let genes := uniqueFirst (recs.map RawRec.geneID)
  let triples := recs.map (fun r => (dictIdx cells r.cell_id, dictIdx genes r.geneID, r.umiCount))
  (cells, genes, csr_from_triples cells.length genes.length triples)

/-! ## Cell-boundary mode: convex hull and centroid (`make_multipoint`)

`make_multipoint` delegates to the computational-geometry library
(`shapely`/GEOS: `MultiPoint(points).convex_hull` and `.centroid`), which is
outside this repository. Modelled from the spec: §4.2 prescribes a
leftmost-lower-first point ordering followed by standard monotone-chain hull
construction (degenerate 1- or 2-point inputs yield the degenerate geometry),
with the centroid the area-weighted centroid of the hull polygon. Coordinates
are exact rationals. -/

/-- A planar point. -/
abbrev Pt := Rat × Rat

/-- Leftmost-lower-first comparison: by `x`, ties by `y`. -/
def ptLE (a b : Pt) : Bool :=
  decide (a.1 < b.1) || (decide (a.1 = b.1) && decide (a.2 ≤ b.2))

/-- The canonical point ordering the hull construction starts from. -/
def sortPts (pts : List Pt) : List Pt :=
  pts.mergeSort ptLE

/-- Cross product of `oa` and `ob`: positive when `o→a→b` turns
counterclockwise. -/
def cross (o a b : Pt) : Rat :=
  (a.1 - o.1) * (b.2 - o.2) - (a.2 - o.2) * (b.1 - o.1)

/-- Monotone-chain pop step: drop chain tips that fail to keep a strict
counterclockwise turn toward the incoming point `p` (the chain is kept in
reverse, newest first). -/
def popChain : List Pt → Pt → List Pt
  | b :: a :: rest, p => if cross a b p ≤ 0 then popChain (a :: rest) p else b :: a :: rest
  | acc, _ => acc

/-- One half-hull of the monotone chain over an ordered point list. -/
def chainFold (pts : List Pt) : List Pt :=
  pts.foldl (fun acc p => p :: popChain acc p) []

/-- The convex hull of a point list: canonical sort, then lower and upper
monotone chains; one or two distinct points yield the degenerate geometry
unchanged. -/
def convex_hull (pts : List Pt) : List Pt :=
  let s := sortPts pts
  if s.length ≤ 2 then s
  else (chainFold s).reverse.dropLast ++ (chainFold s.reverse).reverse.dropLast

/-- The mean of a point list (the centroid of degenerate geometries). -/
def meanPt (l : List Pt) : Pt :=
  ((l.map Prod.fst).sum / l.length, (l.map Prod.snd).sum / l.length)

/-- The cyclic edge list of a polygon. -/
def polyEdges (h : List Pt) : List (Pt × Pt) :=
  h.zip (h.drop 1 ++ h.take 1)

/-- The centroid of a hull geometry: the area-weighted polygon centroid when
the hull has positive area, the vertex mean for degenerate (point, segment or
zero-area) geometries. -/
def hullCentroid (h : List Pt) : Pt :=
  if h.length < 3 then meanPt h
  else
    let es := polyEdges h
    let a2 := (es.map (fun e => e.1.1 * e.2.2 - e.2.1 * e.1.2)).sum
    if a2 = 0 then meanPt h
    else
      ((es.map (fun e => (e.1.1 + e.2.1) * (e.1.1 * e.2.2 - e.2.1 * e.1.2))).sum / (3 * a2),
       (es.map (fun e => (e.1.2 + e.2.2) * (e.1.1 * e.2.2 - e.2.1 * e.1.2))).sum / (3 * a2))

/-- The `StereoExpData.make_multipoint(x)`: the hull geometry of a group's points
together with its centroid `(x_center, y_center)`. -/
def make_multipoint (pts : List Pt) : List Pt × Pt :=
  let h := convex_hull pts
  (h, hullCentroid h)

/-! ## The hierarchical persistence codec (`write_h5ad` / `read_h5ad`)

`write_h5ad`/`read_h5ad` live in `stereo_exp_data.py`; the per-field
(de)serializers they call (`stereo/core/h5ad.py`: `h5ad.write`,
`h5ad.read_group`, `h5ad.read_dataset`) are not among the sources at hand.
Modelled from the spec (§4.4, §6): the container is a list of named top-level
entries; each metadata table is a group holding the name sequence and every
populated attribute array under its verbatim attribute name; `position` and
`bin_type` are plain datasets; a sparse matrix is a group with an explicit
sparse-format tag plus index/data arrays, a dense matrix a plain dataset;
reading iterates the top-level names, dispatches by name, and ignores
unrecognized entries. -/

/-- A typed entry of the hierarchical container. -/
inductive H5Entry where
  | dsStrArr (a : List String)
  | dsRatArr (a : List Rat)
  | dsNatArr (a : List Nat)
  | dsIntArr (a : List Int)
  | dsPosArr (a : List (Rat × Rat))
  | dsOptStr (s : Option String)
  | dsStr (s : String)
  | dsDense (m : List (List Int))
  | group (items : List (String × H5Entry))
  deriving Repr

/-- The persisted container: the file's named top-level entries. -/
abbrev Container := List (String × H5Entry)

/-- Group lookup by entry name. -/
def getEntry (items : List (String × H5Entry)) (name : String) : Option H5Entry :=
  (items.find? (fun it => it.1 == name)).map Prod.snd

/-- Compressed encoding of one matrix row: the `(column, value)` pairs of its
nonzero entries, columns ascending from `j`. -/
def encRow (j : Nat) : List Int → List (Nat × Int)
  | [] => []
  | v :: t => if v = 0 then encRow (j + 1) t else (j, v) :: encRow (j + 1) t

/-- Decompression of one row: reading `n` entries from column `j` on out of
the ascending `(column, value)` pairs, filling zeros elsewhere. -/
def decRow (j n : Nat) (nz : List (Nat × Int)) : List Int :=
  match n with
  | 0 => []
  | n + 1 =>
    match nz with
    | [] => 0 :: decRow (j + 1) n []
    | (k, v) :: t => if k = j then v :: decRow (j + 1) n t else 0 :: decRow (j + 1) n ((k, v) :: t)

/-- Regrouping of a flat array into consecutive chunks of the given sizes. -/
def splitByLens : List Nat → List α → List (List α)
  | [], _ => []
  | n :: t, xs => xs.take n :: splitByLens t (xs.drop n)

/-- Serialization of a sparse matrix: format tag, shape, and the flattened
data/index arrays with per-row nonzero counts. -/
def encodeCSR (m : ExpMat) : H5Entry :=
  let rowsNZ := m.rows.map (encRow 0)
  .group [("format", .dsStr "csr"),
          ("shape", .dsNatArr [m.rows.length, m.ncols]),
          ("data", .dsIntArr (rowsNZ.flatten.map Prod.snd)),
          ("indices", .dsNatArr (rowsNZ.flatten.map Prod.fst)),
          ("row_nnz", .dsNatArr (rowsNZ.map List.length))]

/-- Deserialization of a sparse-matrix group back into the value grid. -/
def decodeCSR (items : List (String × H5Entry)) : ExpMat :=
  let nc := match getEntry items "shape" with
    | some (.dsNatArr [_, b]) => b
    | _ => 0
  let data := match getEntry items "data" with
    | some (.dsIntArr a) => a
    | _ => []
  let idxs := match getEntry items "indices" with
    | some (.dsNatArr a) => a
    | _ => []
  let lens := match getEntry items "row_nnz" with
    | some (.dsNatArr a) => a
    | _ => []
  { sparse := true, ncols := nc,
    rows := (splitByLens lens (idxs.zip data)).map (decRow 0 nc) }

/-- The `h5ad.write` on the expression matrix: sparse matrices become a tagged
group, dense matrices a plain dataset. -/
def writeExpMatrix (m : ExpMat) : H5Entry :=
  if m.sparse then encodeCSR m else .dsDense m.rows

/-- The `exp_matrix` branch of `read_h5ad`: a group is read back as a sparse
matrix, a plain dataset as a dense one (whose shape is the array's own). -/
def readExpMatrix : H5Entry → ExpMat
  | .group items => decodeCSR items
  | .dsDense m => { sparse := false, ncols := (m.headD []).length, rows := m }
  | _ => { sparse := false, ncols := 0, rows := [] }

/-- The `h5ad.write` on the cell table: a group with the name sequence and each
populated attribute array under its verbatim name. -/
def writeCell (c : Cell) : H5Entry :=
  .group ((c.cell_name.map (fun a => ("cell_name", H5Entry.dsStrArr a))).toList ++
          (c.total_counts.map (fun a => ("total_counts", H5Entry.dsRatArr a))).toList ++
          (c.pct_counts_mt.map (fun a => ("pct_counts_mt", H5Entry.dsRatArr a))).toList ++
          (c.n_genes_by_counts.map (fun a => ("n_genes_by_counts", H5Entry.dsRatArr a))).toList)

/-- The `h5ad.read_group` on a cell group: fields restored by attribute name,
anything unrecognized ignored. -/
def readCell : H5Entry → Cell
  | .group items =>
    items.foldl (fun c it =>
      match it with
      | ("cell_name", .dsStrArr a) => { c with cell_name := some a }
      | ("total_counts", .dsRatArr a) => { c with total_counts := some a }
      | ("pct_counts_mt", .dsRatArr a) => { c with pct_counts_mt := some a }
      | ("n_genes_by_counts", .dsRatArr a) => { c with n_genes_by_counts := some a }
      | _ => c) {}
  | _ => {}

/-- The `h5ad.write` on the gene table. -/
def writeGene (g : Gene) : H5Entry :=
  .group ((g.gene_name.map (fun a => ("gene_name", H5Entry.dsStrArr a))).toList ++
          (g.n_cells.map (fun a => ("n_cells", H5Entry.dsRatArr a))).toList)

/-- The `h5ad.read_group` on a gene group. -/
def readGene : H5Entry → Gene
  | .group items =>
    items.foldl (fun g it =>
      match it with
      | ("gene_name", .dsStrArr a) => { g with gene_name := some a }
      | ("n_cells", .dsRatArr a) => { g with n_cells := some a }
      | _ => g) {}
  | _ => {}

/-- The `position` dataset read back. -/
def readPos : H5Entry → List (Rat × Rat)
  | .dsPosArr a => a
  | _ => []

/-- The `bin_type` dataset read back. -/
def readOptStr : H5Entry → Option String
  | .dsOptStr s => s
  | _ => none

/-- The container `write_h5ad` emits, in the source's write order of
`genes`, `cells`, `position`, `exp_matrix`, `bin_type`. -/
def mkContainer (d : StereoExpData) : Container :=
  [("genes", writeGene d.genes),
   ("cells", writeCell d.cells),
   ("position", .dsPosArr d.position),
   ("exp_matrix", writeExpMatrix d.exp_matrix),
   ("bin_type", .dsOptStr d.bin_type)]

/-- Opening `h5py.File(path, 'w')`: the file library rejects a `None` path
with a `TypeError` during filename encoding, before any container is
created. -/
def h5py_file_w (path : Option String) : Except PyExc Unit :=
  match path with
  | none => .error ⟨"TypeError", some "expected str, bytes or os.PathLike object, not NoneType"⟩
  | some _ => .ok ()

/-- The `StereoExpData.write_h5ad()`: when `output` is unset it logs
"the output path must be set before writting." — and then proceeds anyway
into `h5py.File(self.output, 'w')` (there is no `raise`/`return` after the
log), so the failure that stops it is the file library's `TypeError`, not a
dedicated error. With a configured output the container is written. Returns
the logged messages and the outcome. -/
def StereoExpData.write_h5ad (d : StereoExpData) : List String × Except PyExc Container :=
  let logs := if d.output = none then ["the output path must be set before writting."] else []
  match h5py_file_w d.output with
  | .error e => (logs, .error e)
  | .ok () => (logs, .ok (mkContainer d))

/-- The `StereoExpData.write()`: delegates to `write_h5ad`. -/
def StereoExpData.write (d : StereoExpData) : List String × Except PyExc Container :=
  d.write_h5ad

/-- The `StereoExpData.read_h5ad()` on an already-opened container: iterates the
top-level names, dispatches `cells`/`genes`/`position`/`bin_type`/
`exp_matrix` (the matrix by group-vs-dataset inspection, `bin_type` through
its validating setter), and ignores everything else. -/
def StereoExpData.read_h5ad (d0 : StereoExpData) (c : Container) :
    Except (String × PyExc) StereoExpData :=
  c.foldlM (fun d it =>
    if it.1 = "cells" then .ok { d with cells := readCell it.2 }
    else if it.1 = "genes" then .ok { d with genes := readGene it.2 }
    else if it.1 = "position" then .ok { d with position := readPos it.2 }
    else if it.1 = "bin_type" then d.set_bin_type (readOptStr it.2)
    else if it.1 = "exp_matrix" then .ok { d with exp_matrix := readExpMatrix it.2 }
    else .ok d) d0

/-! ## Sample data for witnesses -/

/-- The empty dense matrix. -/
def emptyMat : ExpMat := { sparse := false, ncols := 0, rows := [] }

/-- A freshly constructed blank dataset (all optional fields unset). -/
def blankSED : StereoExpData :=
  { exp_matrix := emptyMat, cells := {}, genes := {}, position := [], bin_type := none }

/-! ## Helper lemmas -/

/-- A left fold of `min` stays below `x` once `x` bounds the accumulator or
occurs in the list. -/
theorem foldl_min_le (t : List Int) (acc x : Int) (h : acc ≤ x ∨ x ∈ t) :
    t.foldl min acc ≤ x := by
  induction t generalizing acc with
  | nil => simpa using h.resolve_right (List.not_mem_nil x)
  | cons b t ih =>
    simp only [List.foldl_cons]
    rcases h with h1 | h1
    · exact ih _ (Or.inl (le_trans (min_le_left _ _) h1))
    · rcases List.mem_cons.mp h1 with h2 | h2
      · subst h2
        exact ih _ (Or.inl (min_le_right _ _))
      · exact ih _ (Or.inr h2)

/-- The `colMin` bounds every element of the list from below. -/
theorem colMin_le {l : List Int} {x : Int} (hx : x ∈ l) : colMin l ≤ x := by
  match l, hx with
  | a :: t, hx =>
    simp only [colMin]
    rcases List.mem_cons.mp hx with h1 | h1
    · exact foldl_min_le t a x (Or.inl (le_of_eq h1.symm))
    · exact foldl_min_le t a x (Or.inr h1)

/-! ## C10 — the `cell_name` setter type guard -/

/-- C10: assigning a non-`ndarray` value to `Cell.cell_name` raises a
`TypeError` and leaves the stored cell name (indeed the whole object)
unchanged; assigning an `ndarray` succeeds and replaces the stored name. -/
theorem cell_name_setter_guard (c : Cell) (a : List String) (s : String) :
    c.set_cell_name (.nonArray s) =
      (c, some ⟨"TypeError", some "cell name must be a np.ndarray object."⟩) ∧
    (c.set_cell_name (.nonArray s)).1.cell_name = c.cell_name ∧
    c.set_cell_name (.ndarray a) = ({ c with cell_name := some a }, none) := by
  exact ⟨rfl, rfl, rfl⟩

/-! ## C5 — `bin_type` validation -/

/-- C5: `check()` and the `bin_type` setter accept exactly `None`, `'bins'`
and `'cell_bins'`; any other value makes both fail, with the error's logged
message citing the offending value. -/
theorem bin_type_validation (d : StereoExpData) (b : Option String) :
    ((b = none ∨ b = some "bins" ∨ b = some "cell_bins") →
      bin_type_check b = .ok () ∧
      StereoExpData.check { d with bin_type := b } = .ok () ∧
      d.set_bin_type b = .ok { d with bin_type := b }) ∧
    (∀ s, b = some s → s ≠ "bins" → s ≠ "cell_bins" →
      ∃ e, bin_type_check b = .error e ∧
        StereoExpData.check { d with bin_type := b } = .error e ∧
        d.set_bin_type b = .error e ∧
        e.1 = "the bin type `" ++ s ++ "` is not in the range, please check!" ∧
        (∃ pre post, e.1 = pre ++ s ++ post) ∧
        e.2 = ⟨"Exception", none⟩) := by
  constructor
  · rintro (rfl | rfl | rfl) <;>
      exact ⟨rfl, rfl, rfl⟩
  · rintro s rfl hs1 hs2
    refine ⟨("the bin type `" ++ s ++ "` is not in the range, please check!",
             ⟨"Exception", none⟩), ?_, ?_, ?_, rfl, ⟨"the bin type `", "` is not in the range, please check!", rfl⟩, rfl⟩ <;>
      simp [bin_type_check, StereoExpData.check, StereoExpData.set_bin_type, hs1, hs2]

/-- C5 witness: the valid value `'bins'` passes and the invalid value
`'hex'` fails with the citing message, on a concrete dataset. -/
theorem bin_type_validation_witness :
    (bin_type_check (some "bins") = .ok () ∧
      StereoExpData.check { blankSED with bin_type := some "bins" } = .ok () ∧
      blankSED.set_bin_type (some "bins") = .ok { blankSED with bin_type := some "bins" }) ∧
    (∃ e, bin_type_check (some "hex") = .error e ∧
      StereoExpData.check { blankSED with bin_type := some "hex" } = .error e ∧
      blankSED.set_bin_type (some "hex") = .error e ∧
      e.1 = "the bin type `" ++ "hex" ++ "` is not in the range, please check!" ∧
      (∃ pre post, e.1 = pre ++ "hex" ++ post) ∧
      e.2 = ⟨"Exception", none⟩) :=
  ⟨(bin_type_validation blankSED (some "bins")).1 (Or.inr (Or.inl rfl)),
   (bin_type_validation blankSED (some "hex")).2 "hex" rfl (by decide) (by decide)⟩

/-! ## C2 — grid-bin quantization and bin centers -/

/-- C2: in grid-bin mode with a positive bin size `B`, every row produced by
`parse_bin_coor` quantizes each axis to `floor((coord - coord_min) / B)`
(characterized by the floor inequalities, the offsets being nonnegative since
the minima are subtracted), and centers each axis at
`bin_coord * B + coord_min + floor(B / 2)`. -/
theorem grid_bin_quantization (pts : List (Int × Int)) (B : Int) (hB : 0 < B)
    (row : BinRow) (hrow : row ∈ parse_bin_coor pts B) :
    (row.x, row.y) ∈ pts ∧
    0 ≤ row.x - colMin (pts.map Prod.fst) ∧
    0 ≤ row.y - colMin (pts.map Prod.snd) ∧
    row.bin_x = (row.x - colMin (pts.map Prod.fst)).fdiv B ∧
    row.bin_y = (row.y - colMin (pts.map Prod.snd)).fdiv B ∧
    row.bin_x * B ≤ row.x - colMin (pts.map Prod.fst) ∧
    row.x - colMin (pts.map Prod.fst) < (row.bin_x + 1) * B ∧
    row.x_center = row.bin_x * B + colMin (pts.map Prod.fst) + B.fdiv 2 ∧
    row.y_center = row.bin_y * B + colMin (pts.map Prod.snd) + B.fdiv 2 := by
  simp only [parse_bin_coor, List.mem_map] at hrow
  obtain ⟨p, hp, rfl⟩ := hrow
  have hx : 0 ≤ p.1 - colMin (pts.map Prod.fst) := by
    have := colMin_le (List.mem_map_of_mem Prod.fst hp)
    omega
  have hy : 0 ≤ p.2 - colMin (pts.map Prod.snd) := by
    have := colMin_le (List.mem_map_of_mem Prod.snd hp)
    omega
  refine ⟨hp, hx, hy, rfl, rfl, ?_, ?_, rfl, rfl⟩
  · rw [merge_bin_coor, Int.fdiv_eq_ediv _ (le_of_lt hB)]
    exact Int.ediv_mul_le _ (ne_of_gt hB)
  · rw [merge_bin_coor, Int.fdiv_eq_ediv _ (le_of_lt hB)]
    exact Int.lt_ediv_add_one_mul_self _ hB

/-- C2 witness: with `B = 100` and points `(5, 0)` and `(150, 7)` (so
`x_min = 5`), the second row has `bin_x = 1` and `x_center = 155`, and the
general theorem applies to it. -/
theorem grid_bin_quantization_witness :
    ((parse_bin_coor [(5, 0), (150, 7)] 100).getD 1 default).bin_x = 1 ∧
    ((parse_bin_coor [(5, 0), (150, 7)] 100).getD 1 default).x_center = 155 ∧
    (((parse_bin_coor [(5, 0), (150, 7)] 100).getD 1 default).x, ((parse_bin_coor [(5, 0), (150, 7)] 100).getD 1 default).y) ∈ [((5 : Int), (0 : Int)), (150, 7)] ∧
    0 ≤ ((parse_bin_coor [(5, 0), (150, 7)] 100).getD 1 default).x - colMin ([((5 : Int), (0 : Int)), (150, 7)].map Prod.fst) := by
  have h := grid_bin_quantization [(5, 0), (150, 7)] 100 (by decide)
    ((parse_bin_coor [(5, 0), (150, 7)] 100).getD 1 default) (by decide)
  exact ⟨by decide, by decide, h.1, h.2.1⟩

/-! ## C3 — duplicate-summing sparse construction -/

/-- Shape of a value grid: `nr` rows, each of width `nc`. -/
def GridWF (m : List (List Int)) (nr nc : Nat) : Prop :=
  m.length = nr ∧ ∀ r ∈ m, r.length = nc

/-- The `zeroGrid` has the requested shape. -/
theorem zeroGrid_WF (nr nc : Nat) : GridWF (zeroGrid nr nc) nr nc := by
  constructor
  · simp [zeroGrid]
  · intro r hr
    rw [List.eq_of_mem_replicate hr]
    simp

/-- A row read with `getD` inside the grid is a member of the grid. -/
theorem getD_mem {m : List (List Int)} {i : Nat} (hi : i < m.length) :
    m.getD i [] ∈ m := by
  rw [List.getD_eq_getElem m [] hi]
  exact List.getElem_mem hi

/-- The `gridAdd` preserves the grid's shape. -/
theorem gridAdd_WF {m : List (List Int)} {nr nc : Nat} (h : GridWF m nr nc)
    (i j : Nat) (v : Int) : GridWF (gridAdd m i j v) nr nc := by
  by_cases hi : i < m.length
  · obtain ⟨hlen, hrows⟩ := h
    constructor
    · simpa [gridAdd]
    · intro r hr
      rcases List.mem_or_eq_of_mem_set hr with h1 | h1
      · exact hrows r h1
      · subst h1
        simpa using hrows _ (getD_mem hi)
  · have heq : gridAdd m i j v = m := List.set_eq_of_length_le (le_of_not_lt hi)
    rw [heq]
    exact h

/-- The `getD` after `set` at the same in-range index reads the new value. -/
theorem getD_set_self {α : Type} (l : List α) (i : Nat) (x d : α) (h : i < l.length) :
    (l.set i x).getD i d = x := by
  rw [List.getD_eq_getElem?_getD, List.getElem?_set_self h]
  rfl

/-- The `getD` after `set` at a different index reads the old value. -/
theorem getD_set_ne {α : Type} (l : List α) {i k : Nat} (x d : α) (h : i ≠ k) :
    (l.set i x).getD k d = l.getD k d := by
  rw [List.getD_eq_getElem?_getD, List.getElem?_set_ne h, ← List.getD_eq_getElem?_getD]

/-- Entry read of `gridAdd`: adding at `(a, b)` changes only entry `(a, b)`,
and adds `v` there when the read target is inside the grid. -/
theorem gridEntry_gridAdd {m : List (List Int)} {nr nc : Nat} (h : GridWF m nr nc)
    {i j : Nat} (hi : i < nr) (hj : j < nc) (a b : Nat) (v : Int) :
    gridEntry (gridAdd m a b v) i j =
      if a = i ∧ b = j then gridEntry m i j + v else gridEntry m i j := by
  have hilen : i < m.length := h.1 ▸ hi
  unfold gridEntry gridAdd
  by_cases ha : a = i
  · subst ha
    have harow : (m.getD a []).length = nc := h.2 _ (getD_mem hilen)
    by_cases hb : b = j
    · subst hb
      rw [if_pos ⟨rfl, rfl⟩, getD_set_self _ _ _ _ hilen,
        getD_set_self _ _ _ _ (by rw [harow]; exact hj)]
    · rw [if_neg (fun hc => hb hc.2), getD_set_self _ _ _ _ hilen, getD_set_ne _ _ _ hb]
  · rw [if_neg (fun hc => ha hc.1), getD_set_ne _ _ _ ha]

/-- Entry `(i, j)` of a zero grid is `0`. -/
theorem gridEntry_zeroGrid (nr nc i j : Nat) : gridEntry (zeroGrid nr nc) i j = 0 := by
  unfold gridEntry zeroGrid
  have hrow : (List.replicate nr (List.replicate nc (0 : Int))).getD i [] = List.replicate nc (0 : Int) ∨
      (List.replicate nr (List.replicate nc (0 : Int))).getD i [] = [] := by
    by_cases hi : i < nr
    · left
      rw [List.getD_eq_getElem _ _ (by simpa using hi)]
      simp
    · right
      exact List.getD_eq_default _ _ (by simpa using le_of_not_lt hi)
  rcases hrow with h | h <;> rw [h]
  · by_cases hj : j < nc
    · rw [List.getD_eq_getElem _ _ (by simpa using hj)]
      simp
    · exact List.getD_eq_default _ _ (by simpa using le_of_not_lt hj)
  · rfl

/-- Accumulating a triple list into a grid: each in-range entry receives the
sum of the counts of the triples addressed to it, on top of what the grid
already held. -/
theorem gridEntry_fold {nr nc : Nat} (ts : List (Nat × Nat × Int))
    (m : List (List Int)) (hWF : GridWF m nr nc) {i j : Nat}
    (hi : i < nr) (hj : j < nc) :
    gridEntry (ts.foldl (fun g t => gridAdd g t.1 t.2.1 t.2.2) m) i j =
      gridEntry m i j +
        ((ts.filter (fun t => t.1 == i && t.2.1 == j)).map (fun t => t.2.2)).sum := by
  induction ts generalizing m with
  | nil => simp
  | cons t ts ih =>
    simp only [List.foldl_cons]
    rw [ih _ (gridAdd_WF hWF _ _ _), gridEntry_gridAdd hWF hi hj]
    by_cases hc : t.1 = i ∧ t.2.1 = j
    · rw [if_pos hc, List.filter_cons_of_pos (by simp [hc.1, hc.2])]
      simp only [List.map_cons, List.sum_cons]
      ring
    · rw [if_neg hc, List.filter_cons_of_neg (by simpa using fun h1 h2 => hc ⟨h1, h2⟩)]

/-- C3: `read_txt` builds the matrix from the (row, column, count) triples of
the surviving records, and entry `(i, j)` is the sum of the counts of all
records addressed to it — duplicate `(row, column)` pairs accumulate. -/
theorem read_txt_duplicate_summing (recs : List RawRec) (i j : Nat)
    (hi : i < (uniqueFirst (recs.map RawRec.cell_id)).length)
    (hj : j < (uniqueFirst (recs.map RawRec.geneID)).length) :
    gridEntry (read_txt_matrix recs).2.2 i j =
      ((recs.filter (fun r =>
          dictIdx (uniqueFirst (recs.map RawRec.cell_id)) r.cell_id == i &&
          dictIdx (uniqueFirst (recs.map RawRec.geneID)) r.geneID == j)).map
        RawRec.umiCount).sum := by
  unfold read_txt_matrix csr_from_triples
  rw [gridEntry_fold _ _ (zeroGrid_WF _ _) hi hj, gridEntry_zeroGrid,
    List.filter_map, List.map_map]
  simp only [Function.comp_def, zero_add]

/-- C3 witness: two records with the same (cell, gene) pair and counts 3 and
4 produce the single matrix entry 7, and the general theorem applies there. -/
theorem read_txt_duplicate_summing_witness :
    gridEntry (read_txt_matrix [⟨"c", "g", 3⟩, ⟨"c", "g", 4⟩]).2.2 0 0 = 7 ∧
    gridEntry (read_txt_matrix [⟨"c", "g", 3⟩, ⟨"c", "g", 4⟩]).2.2 0 0 =
      ((([⟨"c", "g", 3⟩, ⟨"c", "g", 4⟩] : List RawRec).filter (fun r =>
          dictIdx (uniqueFirst (([⟨"c", "g", 3⟩, ⟨"c", "g", 4⟩] : List RawRec).map RawRec.cell_id)) r.cell_id == 0 &&
          dictIdx (uniqueFirst (([⟨"c", "g", 3⟩, ⟨"c", "g", 4⟩] : List RawRec).map RawRec.geneID)) r.geneID == 0)).map
        RawRec.umiCount).sum :=
  ⟨by decide,
   read_txt_duplicate_summing [⟨"c", "g", 3⟩, ⟨"c", "g", 4⟩] 0 0 (by decide) (by decide)⟩

/-! ## C4 — index subsetting -/

/-- The `getD` over a mapped list evaluates `f` at the defaulted source entry. -/
theorem getD_map {α β : Type} (f : α → β) (l : List α) (k : Nat) (hk : k < l.length)
    (d : α) (e : β) : (l.map f).getD k e = f (l.getD k d) := by
  rw [List.getD_eq_getElem _ _ (by simpa using hk), List.getElem_map,
    List.getD_eq_getElem _ _ hk]

/-- C4: `sub_by_index` (which updates the receiver's fields in place and
returns that same receiver — its embedding returns the receiver's new state)
keeps exactly one matrix row, position row and cell name per entry of the
cell selection `I`, in the order of `I` and with entry `k` drawn from
position `I[k]` of the originals; a gene selection `J` restricts the matrix
columns and the gene table the same way. No distinctness of `I` or `J` is
required: duplicated indices duplicate their rows. -/
theorem sub_by_index_spec (d : StereoExpData) (I : List Nat) (gi : Option (List Nat))
    (ns : List String) (hns : d.cells.cell_name = some ns) :
    (d.sub_by_index (some I) gi).exp_matrix.rows.length = I.length ∧
    (d.sub_by_index (some I) gi).position.length = I.length ∧
    (d.sub_by_index (some I) gi).cells.cell_name = some (I.map (fun i => ns.getD i "")) ∧
    ((d.sub_by_index (some I) gi).cells.cell_name.getD []).length = I.length ∧
    (d.sub_by_index (some I) gi).genes =
      (match gi with
       | none => d.genes
       | some J => d.genes.sub_set J) ∧
    (d.sub_by_index (some I) gi).exp_matrix.ncols =
      (match gi with
       | none => d.exp_matrix.ncols
       | some J => J.length) ∧
    (∀ k, k < I.length →
      (d.sub_by_index (some I) gi).exp_matrix.rows.getD k [] =
        (match gi with
         | none => d.exp_matrix.rows.getD (I.getD k 0) []
         | some J => J.map (fun j => (d.exp_matrix.rows.getD (I.getD k 0) []).getD j 0)) ∧
      (d.sub_by_index (some I) gi).position.getD k (0, 0) =
        d.position.getD (I.getD k 0) (0, 0) ∧
      ((d.sub_by_index (some I) gi).cells.cell_name.getD []).getD k "" =
        ns.getD (I.getD k 0) "") := by
  cases gi with
  | none =>
    refine ⟨by simp [StereoExpData.sub_by_index, ExpMat.rowSelect],
      by simp [StereoExpData.sub_by_index],
      by simp [StereoExpData.sub_by_index, Cell.sub_set, hns, fancy],
      by simp [StereoExpData.sub_by_index, Cell.sub_set, hns, fancy],
      by simp [StereoExpData.sub_by_index],
      by simp [StereoExpData.sub_by_index, ExpMat.rowSelect], ?_⟩
    intro k hk
    refine ⟨?_, ?_, ?_⟩
    · simp only [StereoExpData.sub_by_index, ExpMat.rowSelect]
      exact getD_map _ I k hk 0 _
    · simp only [StereoExpData.sub_by_index]
      exact getD_map _ I k hk 0 _
    · simp only [StereoExpData.sub_by_index, Cell.sub_set, hns, Option.map_some, fancy,
        Option.getD_some]
      exact getD_map _ I k hk 0 _
  | some J =>
    refine ⟨by simp [StereoExpData.sub_by_index, ExpMat.rowSelect, ExpMat.colSelect],
      by simp [StereoExpData.sub_by_index],
      by simp [StereoExpData.sub_by_index, Cell.sub_set, hns, fancy],
      by simp [StereoExpData.sub_by_index, Cell.sub_set, hns, fancy],
      by simp [StereoExpData.sub_by_index],
      by simp [StereoExpData.sub_by_index, ExpMat.rowSelect, ExpMat.colSelect], ?_⟩
    intro k hk
    refine ⟨?_, ?_, ?_⟩
    · simp only [StereoExpData.sub_by_index, ExpMat.rowSelect, ExpMat.colSelect]
      rw [getD_map _ (I.map _) k (by simpa using hk) [] _,
        getD_map _ I k hk 0 []]
    · simp only [StereoExpData.sub_by_index]
      exact getD_map _ I k hk 0 _
    · simp only [StereoExpData.sub_by_index, Cell.sub_set, hns, Option.map_some, fancy,
        Option.getD_some]
      exact getD_map _ I k hk 0 _

/-- C4 witness: on a concrete 2×2 dataset, the duplicated selection
`I = [1, 0, 1]` with gene selection `J = [0]` yields three rows in the order
of `I` and one column, as the theorem states. -/
theorem sub_by_index_spec_witness :
    let d : StereoExpData :=
      { exp_matrix := { sparse := false, ncols := 2, rows := [[1, 2], [3, 4]] },
        cells := { cell_name := some ["a", "b"] },
        genes := { gene_name := some ["g1", "g2"] },
        position := [(0, 0), (1, 1)], bin_type := some "bins" }
    (d.sub_by_index (some [1, 0, 1]) (some [0])).exp_matrix.rows = [[3], [1], [3]] ∧
    (d.sub_by_index (some [1, 0, 1]) (some [0])).cells.cell_name = some ["b", "a", "b"] ∧
    (d.sub_by_index (some [1, 0, 1]) (some [0])).exp_matrix.rows.length = [1, 0, 1].length ∧
    (d.sub_by_index (some [1, 0, 1]) (some [0])).position.length = [1, 0, 1].length := by
  intro d
  have h := sub_by_index_spec d [1, 0, 1] (some [0]) ["a", "b"] rfl
  exact ⟨by decide, by decide, h.1, h.2.1⟩

/-! ## C6/C7 — name subsetting: resolution failure and non-destructiveness -/

/-- The generic numpy error raised by `argwhere(...)[0]` on an absent name:
its message does not depend on the requested name. -/
def indexError : PyExc :=
  ⟨"IndexError", some "index 0 is out of bounds for axis 0 with size 0"⟩

/-- Name resolution fails with the generic `IndexError` exactly on absent
names. -/
theorem argwhere_first_err {names : List String} {v : String} (h : v ∉ names) :
    argwhere_first names v = .error indexError := by
  unfold argwhere_first
  rw [List.findIdx?_eq_none_iff.mpr (fun x hx => by
    simp only [decide_eq_false_iff_not]
    exact fun he => h (he ▸ hx))]
  rfl

/-- Name resolution succeeds on present names. -/
theorem argwhere_first_ok {names : List String} {v : String} (h : v ∈ names) :
    ∃ k, argwhere_first names v = .ok k := by
  unfold argwhere_first
  have hs : (names.findIdx? (· = v)).isSome := by
    rw [List.findIdx?_isSome]
    exact List.any_eq_true.mpr ⟨v, h, by simp⟩
  obtain ⟨k, hk⟩ := Option.isSome_iff_exists.mp hs
  exact ⟨k, by rw [hk]⟩

/-- Resolving a list of all-present names succeeds. -/
theorem mapM_argwhere_ok {names : List String} (l : List String)
    (h : ∀ n ∈ l, n ∈ names) :
    ∃ ks, l.mapM (argwhere_first names) = Except.ok ks := by
  induction l with
  | nil => exact ⟨[], rfl⟩
  | cons a t ih =>
    obtain ⟨k, hk⟩ := argwhere_first_ok (h a (List.mem_cons_self a t))
    obtain ⟨ks, hks⟩ := ih (fun n hn => h n (List.mem_cons_of_mem a hn))
    exact ⟨k :: ks, by rw [List.mapM_cons, hk, hks]; rfl⟩

/-- Resolving a list with any absent name fails with the generic
`IndexError` — the same error whichever name is missing. -/
theorem mapM_argwhere_err {names : List String} (l : List String)
    (h : ∃ n ∈ l, n ∉ names) :
    l.mapM (argwhere_first names) = Except.error indexError := by
  induction l with
  | nil => simp at h
  | cons a t ih =>
    rw [List.mapM_cons]
    by_cases ha : a ∈ names
    · obtain ⟨k, hk⟩ := argwhere_first_ok ha
      have hmiss : ∃ n ∈ t, n ∉ names := by
        obtain ⟨n, hn, hnot⟩ := h
        rcases List.mem_cons.mp hn with h1 | h1
        · exact absurd (h1 ▸ ha) hnot
        · exact ⟨n, h1, hnot⟩
      rw [hk, ih hmiss]
      rfl
    · rw [argwhere_first_err ha]
      rfl

/-- A message "names" a key when the key occurs verbatim inside it. -/
def msgMentions (msg key : String) : Prop :=
  ∃ pre post, msg = pre ++ key ++ post

/-- A message cannot mention a key one of whose characters it lacks. -/
theorem not_mentions_of_char {msg key : String} (c : Char) (hc : c ∈ key.data)
    (hm : c ∉ msg.data) : ¬ msgMentions msg key := by
  rintro ⟨pre, post, rfl⟩
  exact hm (by
    simp only [String.data_append, List.mem_append]
    exact Or.inl (Or.inr hc))

/-- Every requested name present on both axes. -/
def allPresent (names : List String) (req : Option (List String)) : Prop :=
  ∀ l, req = some l → ∀ n ∈ l, n ∈ names

/-- Some requested name absent. -/
def someMissing (names : List String) (req : Option (List String)) : Prop :=
  ∃ l, req = some l ∧ ∃ n ∈ l, n ∉ names

/-- Resolution of a request list with an absent name fails with the generic
`IndexError`. -/
theorem resolveNames_err {names : List String} {l : List String}
    (h : ∃ n ∈ l, n ∉ names) :
    resolveNames names (some l) = .error indexError := by
  simp only [resolveNames]
  rw [mapM_argwhere_err l h]

/-- Resolution of an all-present request succeeds. -/
theorem resolveNames_ok {names : List String} (req : Option (List String))
    (h : allPresent names req) : ∃ ks, resolveNames names req = .ok ks := by
  cases req with
  | none => exact ⟨none, rfl⟩
  | some l =>
    obtain ⟨ks, hks⟩ := mapM_argwhere_ok l (h l rfl)
    refine ⟨some ks, ?_⟩
    simp only [resolveNames]
    rw [hks]

/-- C6 counterexample: on a dataset whose only cell is `"a"`, requesting the
absent cell name `"QQ"` makes `sub_by_name` fail not with a key-citing
`KeyError`, but with numpy's generic `IndexError` whose message
(`index 0 is out of bounds for axis 0 with size 0`) does not name the
missing key. -/
theorem sub_by_name_missing_counterexample :
    (StereoExpData.sub_by_name
        { exp_matrix := { sparse := false, ncols := 1, rows := [[5]] },
          cells := { cell_name := some ["a"] },
          genes := { gene_name := some ["g"] },
          position := [(0, 0)], bin_type := none }
        (some ["QQ"]) none = .error indexError) ∧
    indexError.excName = "IndexError" ∧
    indexError.excName ≠ "KeyError" ∧
    ¬ msgMentions (indexError.msg.getD "") "QQ" := by
  refine ⟨rfl, rfl, by decide, ?_⟩
  exact not_mentions_of_char ('Q') (by decide) (by decide)

/-- C6 (amended): `sub_by_name` does fail on any absent requested cell or
gene name, but with the generic `IndexError` from indexing an empty
`argwhere` result — an error that does not name the missing key. Cell names
are resolved first, so a missing gene name surfaces when every cell name
resolves. -/
theorem sub_by_name_missing (d : StereoExpData) (cn gn : Option (List String))
    (h : someMissing (d.cells.cell_name.getD []) cn ∨
         (allPresent (d.cells.cell_name.getD []) cn ∧
          someMissing (d.genes.gene_name.getD []) gn)) :
    d.sub_by_name cn gn = .error indexError ∧
    indexError.excName = "IndexError" ∧
    indexError.msg = some "index 0 is out of bounds for axis 0 with size 0" := by
  refine ⟨?_, rfl, rfl⟩
  rcases h with ⟨l, rfl, hmiss⟩ | ⟨hall, l, rfl, hmiss⟩
  · unfold StereoExpData.sub_by_name
    rw [resolveNames_err hmiss]
  · obtain ⟨ks, hks⟩ := resolveNames_ok cn hall
    unfold StereoExpData.sub_by_name
    rw [hks, resolveNames_err hmiss]

/-- C6 amended witness: the concrete missing gene name `"QQ"` (with all cell
names present) fails with the generic `IndexError`. -/
theorem sub_by_name_missing_witness :
    StereoExpData.sub_by_name
      { exp_matrix := { sparse := false, ncols := 1, rows := [[5]] },
        cells := { cell_name := some ["a"] },
        genes := { gene_name := some ["g"] },
        position := [(0, 0)], bin_type := none }
      (some ["a"]) (some ["QQ"]) = .error indexError ∧
    indexError.excName = "IndexError" ∧
    indexError.msg = some "index 0 is out of bounds for axis 0 with size 0" :=
  sub_by_name_missing _ (some ["a"]) (some ["QQ"])
    (Or.inr ⟨fun l hl => by
        cases hl
        intro n hn
        exact hn,
      ⟨["QQ"], rfl, "QQ", by decide, by decide⟩⟩)

/-- C7: `sub_by_name` on present names is non-destructive: it deep-copies the
receiver, delegates to `sub_by_index` on the copy, and returns that copy; the
receiver's state after the call — the pair's first component — is the
receiver unchanged in every field. -/
theorem sub_by_name_nondestructive (d : StereoExpData) (cn gn : Option (List String))
    (hcn : allPresent (d.cells.cell_name.getD []) cn)
    (hgn : allPresent (d.genes.gene_name.getD []) gn) :
    ∃ after res, d.sub_by_name cn gn = .ok (after, res) ∧
      after = d ∧
      after.exp_matrix = d.exp_matrix ∧ after.cells = d.cells ∧
      after.genes = d.genes ∧ after.position = d.position ∧
      after.bin_type = d.bin_type ∧
      ∃ ci gi, res = d.sub_by_index ci gi := by
  obtain ⟨ci, hci⟩ := resolveNames_ok cn hcn
  obtain ⟨gi, hgi⟩ := resolveNames_ok gn hgn
  refine ⟨d, d.sub_by_index ci gi, ?_, rfl, rfl, rfl, rfl, rfl, rfl, ci, gi, rfl⟩
  unfold StereoExpData.sub_by_name
  rw [hci, hgi]

/-- C7 witness: a concrete present-name selection leaves the concrete
receiver unchanged. -/
theorem sub_by_name_nondestructive_witness :
    ∃ after res,
      StereoExpData.sub_by_name
        { exp_matrix := { sparse := false, ncols := 1, rows := [[5], [7]] },
          cells := { cell_name := some ["a", "b"] },
          genes := { gene_name := some ["g"] },
          position := [(0, 0), (1, 2)], bin_type := some "bins" }
        (some ["b"]) none = .ok (after, res) ∧
      after =
        { exp_matrix := { sparse := false, ncols := 1, rows := [[5], [7]] },
          cells := { cell_name := some ["a", "b"] },
          genes := { gene_name := some ["g"] },
          position := [(0, 0), (1, 2)], bin_type := some "bins" } ∧
      after.exp_matrix = { sparse := false, ncols := 1, rows := [[5], [7]] } ∧
      after.cells = { cell_name := some ["a", "b"] } ∧
      after.genes = { gene_name := some ["g"] } ∧
      after.position = [(0, 0), (1, 2)] ∧
      after.bin_type = some "bins" ∧
      ∃ ci gi, res =
        StereoExpData.sub_by_index
          { exp_matrix := { sparse := false, ncols := 1, rows := [[5], [7]] },
            cells := { cell_name := some ["a", "b"] },
            genes := { gene_name := some ["g"] },
            position := [(0, 0), (1, 2)], bin_type := some "bins" }
          ci gi :=
  sub_by_name_nondestructive
    { exp_matrix := { sparse := false, ncols := 1, rows := [[5], [7]] },
      cells := { cell_name := some ["a", "b"] },
      genes := { gene_name := some ["g"] },
      position := [(0, 0), (1, 2)], bin_type := some "bins" }
    (some ["b"]) none
    (fun l hl => by
      cases hl
      intro n hn
      exact List.mem_cons_of_mem "a" hn)
    (fun l hl => by cases hl)

/-! ## C8 — writing without a configured output -/

/-- C8: `write()`/`write_h5ad()` with no configured output does not produce a
container, but not by design: the method only logs
"the output path must be set before writting." and falls through into
`h5py.File(None, 'w')`, so the failure that surfaces is the file library's
`TypeError`, not a dedicated output-path error. With an output configured
the same dataset writes its container. -/
theorem write_no_output_bug :
    blankSED.write_h5ad =
      (["the output path must be set before writting."],
       .error ⟨"TypeError", some "expected str, bytes or os.PathLike object, not NoneType"⟩) ∧
    blankSED.write = blankSED.write_h5ad ∧
    ("TypeError" : String) ≠ "OutputPathError" ∧
    ({ blankSED with output := some "out.h5ad" } : StereoExpData).write_h5ad =
      ([], .ok (mkContainer { blankSED with output := some "out.h5ad" })) := by
  exact ⟨rfl, rfl, by decide, rfl⟩

/-! ## C9 — hull and centroid invariance under input reordering -/

/-- The leftmost-lower-first comparison is total. -/
theorem ptLE_total (a b : Pt) : (ptLE a b || ptLE b a) = true := by
  simp only [ptLE, Bool.or_eq_true, decide_eq_true_eq, Bool.and_eq_true]
  rcases lt_trichotomy a.1 b.1 with h | h | h
  · exact Or.inl (Or.inl h)
  · by_cases h2 : a.2 ≤ b.2
    · exact Or.inl (Or.inr ⟨h, h2⟩)
    · exact Or.inr (Or.inr ⟨h.symm, le_of_not_le h2⟩)
  · exact Or.inr (Or.inl h)

/-- The leftmost-lower-first comparison is transitive. -/
theorem ptLE_trans (a b c : Pt) : ptLE a b = true → ptLE b c = true → ptLE a c = true := by
  simp only [ptLE, Bool.or_eq_true, decide_eq_true_eq, Bool.and_eq_true]
  rintro (h1 | ⟨h1, h1'⟩) (h2 | ⟨h2, h2'⟩)
  · exact Or.inl (lt_trans h1 h2)
  · exact Or.inl (h2 ▸ h1)
  · exact Or.inl (h1 ▸ h2)
  · exact Or.inr ⟨h1.trans h2, le_trans h1' h2'⟩

/-- The leftmost-lower-first comparison is antisymmetric. -/
theorem ptLE_antisymm (a b : Pt) : ptLE a b = true → ptLE b a = true → a = b := by
  simp only [ptLE, Bool.or_eq_true, decide_eq_true_eq, Bool.and_eq_true]
  rintro (h1 | ⟨h1, h1'⟩) (h2 | ⟨h2, h2'⟩)
  · exact absurd h2 (lt_asymm h1)
  · exact absurd h1 (by rw [h2]; exact lt_irrefl _)
  · exact absurd h2 (by rw [h1]; exact lt_irrefl _)
  · exact Prod.ext h1 (le_antisymm h1' h2')

/-- The canonical sort is a function of the input's multiset of points:
permuted inputs sort identically. -/
theorem sortPts_perm {pts pts' : List Pt} (h : pts.Perm pts') :
    sortPts pts = sortPts pts' := by
  haveI : IsAntisymm Pt (fun a b => ptLE a b = true) := ⟨ptLE_antisymm⟩
  have hp : (pts.mergeSort ptLE).Perm (pts'.mergeSort ptLE) :=
    ((pts.mergeSort_perm ptLE).trans h).trans (pts'.mergeSort_perm ptLE).symm
  have hs1 : List.Sorted (fun a b => ptLE a b = true) (pts.mergeSort ptLE) :=
    List.sorted_mergeSort ptLE_trans ptLE_total pts
  have hs2 : List.Sorted (fun a b => ptLE a b = true) (pts'.mergeSort ptLE) :=
    List.sorted_mergeSort ptLE_trans ptLE_total pts'
  exact List.eq_of_perm_of_sorted hp hs1 hs2

/-- C9: `make_multipoint` is invariant under any permutation of a group's
input rows — the same point multiset in any order yields the identical hull
geometry and identical centroid `(x_center, y_center)`. -/
theorem make_multipoint_perm_invariant (pts pts' : List Pt) (h : pts.Perm pts') :
    make_multipoint pts = make_multipoint pts' := by
  have hs : sortPts pts = sortPts pts' := sortPts_perm h
  unfold make_multipoint convex_hull
  rw [hs]

/-- C9 witness: a concrete triangle, permuted, has the identical hull and
centroid. -/
theorem make_multipoint_perm_invariant_witness :
    make_multipoint [(0, 0), (2, 0), (1, 3)] = make_multipoint [(1, 3), (0, 0), (2, 0)] :=
  make_multipoint_perm_invariant _ _ (by decide)

/-! ## C1 — round-trip fidelity of the persistence codec -/

/-- An empty compressed row encodes an all-zero row. -/
theorem encRow_eq_nil {j : Nat} {t : List Int} (h : encRow j t = []) :
    t = List.replicate t.length 0 := by
  induction t generalizing j with
  | nil => rfl
  | cons v r ih =>
    unfold encRow at h
    by_cases hv : v = 0
    · rw [if_pos hv] at h
      simp only [List.length_cons, List.replicate_succ]
      rw [hv]
      exact congrArg (List.cons 0) (ih h)
    · rw [if_neg hv] at h
      exact absurd h (by simp)

/-- Decoding the empty compressed row yields zeros. -/
theorem decRow_nil (j n : Nat) : decRow j n [] = List.replicate n 0 := by
  induction n generalizing j with
  | zero => rfl
  | succ n ih =>
    unfold decRow
    rw [ih]
    rfl

/-- Every column index a compressed row stores is at least the start
column. -/
theorem encRow_ge {j : Nat} {t : List Int} {p : Nat × Int} (hp : p ∈ encRow j t) :
    j ≤ p.1 := by
  induction t generalizing j with
  | nil => simp [encRow] at hp
  | cons v r ih =>
    unfold encRow at hp
    by_cases hv : v = 0
    · rw [if_pos hv] at hp
      exact le_trans (Nat.le_succ j) (ih hp)
    · rw [if_neg hv] at hp
      rcases List.mem_cons.mp hp with h1 | h1
      · rw [h1]
      · exact le_trans (Nat.le_succ j) (ih h1)

/-- Row decompression inverts row compression. -/
theorem decRow_encRow (row : List Int) (j : Nat) :
    decRow j row.length (encRow j row) = row := by
  induction row generalizing j with
  | nil => rfl
  | cons v t ih =>
    unfold encRow
    by_cases hv : v = 0
    · rw [if_pos hv]
      cases henc : encRow (j + 1) t with
      | nil =>
        rw [decRow_nil, List.length_cons, List.replicate_succ, hv, ← encRow_eq_nil henc]
      | cons p r =>
        rcases p with ⟨k, w⟩
        have hge : j + 1 ≤ k := encRow_ge (henc ▸ List.mem_cons_self (k, w) r)
        show decRow j (v :: t).length ((k, w) :: r) = v :: t
        simp only [List.length_cons]
        unfold decRow
        show (if k = j then w :: decRow (j + 1) t.length r
              else 0 :: decRow (j + 1) t.length ((k, w) :: r)) = v :: t
        rw [if_neg (by omega), ← henc, ih, hv]
    · rw [if_neg hv]
      show decRow j (v :: t).length ((j, v) :: encRow (j + 1) t) = v :: t
      simp only [List.length_cons]
      unfold decRow
      show (if j = j then v :: decRow (j + 1) t.length (encRow (j + 1) t)
            else 0 :: decRow (j + 1) t.length ((j, v) :: encRow (j + 1) t)) = v :: t
      rw [if_pos rfl, ih]

/-- Splitting a flattened list of chunks by the chunk lengths restores the
chunks. -/
theorem splitByLens_flatten {α : Type} (ls : List (List α)) :
    splitByLens (ls.map List.length) ls.flatten = ls := by
  induction ls with
  | nil => rfl
  | cons a t ih =>
    simp only [List.map_cons, List.flatten_cons, splitByLens]
    rw [List.take_left, List.drop_left, ih]

/-- Zipping the projections of a pair list restores it. -/
theorem zip_map_fst_snd {α β : Type} (l : List (α × β)) :
    (l.map Prod.fst).zip (l.map Prod.snd) = l := by
  induction l with
  | nil => rfl
  | cons a t ih =>
    simp only [List.map_cons, List.zip_cons_cons, ih]

/-- Decoding an encoded sparse matrix restores the value grid, the column
count and the sparsity flag. -/
theorem decodeCSR_encodeCSR (m : ExpMat) (hWF : m.WF) (hsp : m.sparse = true) :
    readExpMatrix (encodeCSR m) = m := by
  obtain ⟨sp, nc, rows⟩ := m
  obtain ⟨hrect, -⟩ := hWF
  subst hsp
  show ExpMat.mk true nc
      ((splitByLens ((rows.map (encRow 0)).map List.length)
        (((rows.map (encRow 0)).flatten.map Prod.fst).zip
          ((rows.map (encRow 0)).flatten.map Prod.snd))).map (decRow 0 nc)) =
    ExpMat.mk true nc rows
  rw [zip_map_fst_snd, splitByLens_flatten, List.map_map]
  rw [List.map_congr_left (fun r hr => ?_), List.map_id]
  show decRow 0 nc (encRow 0 r) = r
  have hlen : r.length = nc := hrect r hr
  rw [← hlen]
  exact decRow_encRow r 0

/-- Reading back a serialized matrix (sparse or dense) restores it. -/
theorem readExpMatrix_writeExpMatrix (m : ExpMat) (hWF : m.WF) :
    readExpMatrix (writeExpMatrix m) = m := by
  obtain ⟨sp, nc, rows⟩ := m
  cases sp with
  | true => exact decodeCSR_encodeCSR ⟨true, nc, rows⟩ hWF rfl
  | false =>
    obtain ⟨hrect, hnil⟩ := hWF
    show ExpMat.mk false (rows.headD []).length rows = ExpMat.mk false nc rows
    cases rows with
    | nil =>
      have h0 : nc = 0 := hnil rfl
      rw [h0]
      rfl
    | cons r t =>
      have : r.length = nc := hrect r (List.mem_cons_self r t)
      rw [show (r :: t).headD [] = r from rfl, this]

/-- Reading back a serialized cell table restores every field. -/
theorem readCell_writeCell (c : Cell) : readCell (writeCell c) = c := by
  obtain ⟨n, t, p, g⟩ := c
  cases n <;> cases t <;> cases p <;> cases g <;> rfl

/-- Reading back a serialized gene table restores every field. -/
theorem readGene_writeGene (g : Gene) : readGene (writeGene g) = g := by
  obtain ⟨n, c⟩ := g
  cases n <;> cases c <;> rfl

/-- The `Except.ok` feeds `bind` directly. -/
theorem except_ok_bind {ε α β : Type} (a : α) (f : α → Except ε β) :
    (Except.ok a >>= f : Except ε β) = f a := rfl

/-- Reading the container `write_h5ad` emits replays each field onto the
receiving dataset. -/
theorem read_h5ad_mkContainer (d0 d : StereoExpData)
    (hbt : bin_type_check d.bin_type = .ok ()) :
    d0.read_h5ad (mkContainer d) = .ok
      { d0 with genes := readGene (writeGene d.genes),
                cells := readCell (writeCell d.cells),
                position := d.position,
                exp_matrix := readExpMatrix (writeExpMatrix d.exp_matrix),
                bin_type := d.bin_type } := by
  unfold StereoExpData.read_h5ad mkContainer
  simp only [List.foldlM_cons, List.foldlM_nil, except_ok_bind, String.reduceEq,
    if_false, if_true, reduceIte, readPos, readOptStr]
  simp only [StereoExpData.set_bin_type, hbt, except_ok_bind]
  rfl

/-- C1: writing a dataset with a configured output and reading the container
back yields a dataset equal to the original in matrix values, shape and
representation, cell and gene name sequences and populated attribute arrays,
position values (exact, the embedding's rationals re-read verbatim), and
`bin_type` — for sparse and dense matrices alike (the matrix hypothesis is
only rectangularity; its `sparse` flag is arbitrary). The dataset must carry
a legal `bin_type`, since `read_h5ad` restores that field through the
validating setter. -/
theorem write_read_roundtrip (d : StereoExpData) (p : String)
    (hout : d.output = some p) (hWF : d.exp_matrix.WF)
    (hbt : d.bin_type = none ∨ d.bin_type = some "bins" ∨ d.bin_type = some "cell_bins")
    (d0 : StereoExpData) :
    ∃ c d', d.write_h5ad = ([], .ok c) ∧
      d0.read_h5ad c = .ok d' ∧
      d'.exp_matrix = d.exp_matrix ∧
      d'.exp_matrix.rows = d.exp_matrix.rows ∧
      d'.exp_matrix.ncols = d.exp_matrix.ncols ∧
      d'.exp_matrix.sparse = d.exp_matrix.sparse ∧
      d'.cells = d.cells ∧
      d'.cells.cell_name = d.cells.cell_name ∧
      d'.cells.total_counts = d.cells.total_counts ∧
      d'.genes = d.genes ∧
      d'.genes.gene_name = d.genes.gene_name ∧
      d'.position = d.position ∧
      d'.bin_type = d.bin_type := by
  have hw : d.write_h5ad = ([], .ok (mkContainer d)) := by
    unfold StereoExpData.write_h5ad h5py_file_w
    rw [hout]
    simp
  have hbt' : bin_type_check d.bin_type = .ok () := by
    rcases hbt with h | h | h <;> rw [h] <;> rfl
  have hr := read_h5ad_mkContainer d0 d hbt'
  refine ⟨mkContainer d, _, hw, hr, ?_⟩
  rw [readCell_writeCell, readGene_writeGene, readExpMatrix_writeExpMatrix _ hWF]
  exact ⟨rfl, rfl, rfl, rfl, rfl, rfl, rfl, rfl, rfl, rfl, rfl⟩

/-- C1 witness: a concrete two-cell dataset (sparse flag set, attributes and
fractional positions populated) written and read back is restored field for
field; its dense twin likewise. -/
theorem write_read_roundtrip_witness :
    (∃ c d',
      StereoExpData.write_h5ad
        { exp_matrix := { sparse := true, ncols := 2, rows := [[0, 3], [5, 0]] },
          cells := { cell_name := some ["c1", "c2"], total_counts := some [3, 5] },
          genes := { gene_name := some ["g1", "g2"] },
          position := [(1/2, 3), (7/4, 9/8)], bin_type := some "bins",
          output := some "out.h5ad" } = ([], .ok c) ∧
      StereoExpData.read_h5ad blankSED c = .ok d' ∧
      d'.exp_matrix = { sparse := true, ncols := 2, rows := [[0, 3], [5, 0]] } ∧
      d'.exp_matrix.rows = [[0, 3], [5, 0]] ∧
      d'.exp_matrix.ncols = 2 ∧
      d'.exp_matrix.sparse = true ∧
      d'.cells = { cell_name := some ["c1", "c2"], total_counts := some [3, 5] } ∧
      d'.cells.cell_name = some ["c1", "c2"] ∧
      d'.cells.total_counts = some [3, 5] ∧
      d'.genes = { gene_name := some ["g1", "g2"] } ∧
      d'.genes.gene_name = some ["g1", "g2"] ∧
      d'.position = [(1/2, 3), (7/4, 9/8)] ∧
      d'.bin_type = some "bins") ∧
    (∃ c d',
      StereoExpData.write_h5ad
        { exp_matrix := { sparse := false, ncols := 2, rows := [[0, 3], [5, 0]] },
          cells := { cell_name := some ["c1", "c2"] },
          genes := { gene_name := some ["g1", "g2"] },
          position := [(1/2, 3), (7/4, 9/8)], bin_type := none,
          output := some "out.h5ad" } = ([], .ok c) ∧
      StereoExpData.read_h5ad blankSED c = .ok d' ∧
      d'.exp_matrix = { sparse := false, ncols := 2, rows := [[0, 3], [5, 0]] } ∧
      d'.exp_matrix.rows = [[0, 3], [5, 0]] ∧
      d'.exp_matrix.ncols = 2 ∧
      d'.exp_matrix.sparse = false ∧
      d'.cells = { cell_name := some ["c1", "c2"] } ∧
      d'.cells.cell_name = some ["c1", "c2"] ∧
      d'.cells.total_counts = none ∧
      d'.genes = { gene_name := some ["g1", "g2"] } ∧
      d'.genes.gene_name = some ["g1", "g2"] ∧
      d'.position = [(1/2, 3), (7/4, 9/8)] ∧
      d'.bin_type = none) := by
  constructor
  · exact write_read_roundtrip _ "out.h5ad" rfl
      ⟨by intro r hr; fin_cases hr <;> rfl, by intro h; cases h⟩
      (Or.inr (Or.inl rfl)) blankSED
  · exact write_read_roundtrip _ "out.h5ad" rfl
      ⟨by intro r hr; fin_cases hr <;> rfl, by intro h; cases h⟩
      (Or.inl rfl) blankSED

end Stereopy
